import Mathlib

/-!
A shallow embedding of the data-transformation and scoring pipeline of
`GambolSilver.py` (a streamlit app that grades iron-condor strategy rows).

Modelling choices:
* Python floats are modelled by `ℚ` (exact arithmetic; no rounding noise).
* Python functions whose body can fall off the end (returning `None`) or
  raise (`float(...)` parse errors, division by zero) are modelled with
  `Option`.
* `datetime` instants are modelled as rational numbers of seconds; a date
  parsed from `MM/DD/YYYY` text is a midnight instant, i.e. an integer
  multiple of 86400 seconds.
* `round(x, 1)` is Python's round-half-to-even at one decimal digit.
-/

/-- Python `round` to an integer: nearest integer, ties to even. -/
def pyRoundHalfEven (q : ℚ) : ℤ :=
  let f := ⌊q⌋
  let r := q - f
  if r < 1/2 then f
  else if 1/2 < r then f + 1
  else if f % 2 = 0 then f else f + 1

/-- Python `round(q, 1)`: round to one decimal digit, ties to even. -/
def pyround1 (q : ℚ) : ℚ := (pyRoundHalfEven (q * 10) : ℚ) / 10

/-- Python `/` on numbers: raises `ZeroDivisionError` when the divisor is
zero, modelled as `none`. -/
def pydiv (a b : ℚ) : Option ℚ :=
  if b = 0 then none else some (a / b)

/-! ## Grading Engine (source lines 70-105)

`grade_profitability` / `grade_profit_prob` iterate over parallel lists of
thresholds and grades; each loop iteration returns `grade[count]` when the
input is below `threshold[count]`, else returns `1` when the input is at or
above the *last* threshold, else continues.  A Python function whose loop
finishes without returning yields `None`, hence the `Option` codomain. -/

/-- One iteration of the grading loop over the zipped
(threshold, grade) pairs; `lastT` is `ranges[-1]`. -/
def gradeSteps (lastT : ℚ) (x : ℚ) : List (ℚ × ℚ) → Option ℚ
  | [] => none
  | (t, g) :: rest =>
    if x < t then some g
    else if x ≥ lastT then some 1
    else gradeSteps lastT x rest

def profitability_ranges : List ℚ := [60, 70, 80, 90, 100, 125, 150, 200, 300]

def profitability_grade : List ℚ := [0.1, 0.2, 0.3, 0.4, 0.5, 0.6, 0.7, 0.8, 0.9]

/-- `grade_profitability` (source lines 70-77). -/
def grade_profitability (prof : ℚ) : Option ℚ :=
  gradeSteps (profitability_ranges.getLastD 0) prof
    (profitability_ranges.zip profitability_grade)

def profit_prob_ranges : List ℚ := [30, 35, 40, 45, 50, 55, 60]

def profit_prob_grade : List ℚ := [0.3, 0.4, 0.5, 0.6, 0.7, 0.8, 0.9]

/-- `grade_profit_prob` (source lines 79-86). -/
def grade_profit_prob (profit_prob : ℚ) : Option ℚ :=
  gradeSteps (profit_prob_ranges.getLastD 0) profit_prob
    (profit_prob_ranges.zip profit_prob_grade)

/-- Closed form of `grade_profitability` used in proofs. -/
def profitabilityClosed (p : ℚ) : ℚ :=
  if p < 60 then 0.1
  else if p ≥ 300 then 1
  else if p < 70 then 0.2
  else if p < 80 then 0.3
  else if p < 90 then 0.4
  else if p < 100 then 0.5
  else if p < 125 then 0.6
  else if p < 150 then 0.7
  else if p < 200 then 0.8
  else 0.9

/-- Closed form of `grade_profit_prob` used in proofs. -/
def profitProbClosed (pp : ℚ) : ℚ :=
  if pp < 30 then 0.3
  else if pp ≥ 60 then 1
  else if pp < 35 then 0.4
  else if pp < 40 then 0.5
  else if pp < 45 then 0.6
  else if pp < 50 then 0.7
  else if pp < 55 then 0.8
  else 0.9

set_option maxHeartbeats 1000000 in
lemma grade_profitability_eq (p : ℚ) :
    grade_profitability p = some (profitabilityClosed p) := by
  unfold grade_profitability
  rw [show profitability_ranges.getLastD 0 = 300 from rfl,
      show profitability_ranges.zip profitability_grade =
        [(60, 0.1), (70, 0.2), (80, 0.3), (90, 0.4), (100, 0.5),
         (125, 0.6), (150, 0.7), (200, 0.8), (300, 0.9)] from rfl]
  simp only [gradeSteps, profitabilityClosed]
  split_ifs <;> first | rfl | linarith

set_option maxHeartbeats 1000000 in
lemma grade_profit_prob_eq (pp : ℚ) :
    grade_profit_prob pp = some (profitProbClosed pp) := by
  unfold grade_profit_prob
  rw [show profit_prob_ranges.getLastD 0 = 60 from rfl,
      show profit_prob_ranges.zip profit_prob_grade =
        [(30, 0.3), (35, 0.4), (40, 0.5), (45, 0.6), (50, 0.7),
         (55, 0.8), (60, 0.9)] from rfl]
  simp only [gradeSteps, profitProbClosed]
  split_ifs <;> first | rfl | linarith

lemma profitabilityClosed_bounds (p : ℚ) :
    ∃ k : ℤ, profitabilityClosed p = (k : ℚ) / 10 ∧ 1 ≤ k ∧ k ≤ 10 := by
  unfold profitabilityClosed
  split_ifs
  · exact ⟨1, by norm_num⟩
  · exact ⟨10, by norm_num⟩
  · exact ⟨2, by norm_num⟩
  · exact ⟨3, by norm_num⟩
  · exact ⟨4, by norm_num⟩
  · exact ⟨5, by norm_num⟩
  · exact ⟨6, by norm_num⟩
  · exact ⟨7, by norm_num⟩
  · exact ⟨8, by norm_num⟩
  · exact ⟨9, by norm_num⟩

lemma profitProbClosed_bounds (pp : ℚ) :
    ∃ k : ℤ, profitProbClosed pp = (k : ℚ) / 10 ∧ 3 ≤ k ∧ k ≤ 10 := by
  unfold profitProbClosed
  split_ifs
  · exact ⟨3, by norm_num⟩
  · exact ⟨10, by norm_num⟩
  · exact ⟨4, by norm_num⟩
  · exact ⟨5, by norm_num⟩
  · exact ⟨6, by norm_num⟩
  · exact ⟨7, by norm_num⟩
  · exact ⟨8, by norm_num⟩
  · exact ⟨9, by norm_num⟩

set_option maxHeartbeats 4000000 in
lemma profitabilityClosed_mono {x y : ℚ} (h : x ≤ y) :
    profitabilityClosed x ≤ profitabilityClosed y := by
  unfold profitabilityClosed
  split_ifs <;> linarith

set_option maxHeartbeats 4000000 in
lemma profitProbClosed_mono {x y : ℚ} (h : x ≤ y) :
    profitProbClosed x ≤ profitProbClosed y := by
  unfold profitProbClosed
  split_ifs <;> linarith

/-- The grading rule as the specification words it: return the grade paired
with the first threshold that strictly exceeds the input, and `1` when no
threshold exceeds it (in particular when the input is at or beyond the last
threshold). -/
def firstExceedingGrade : List (ℚ × ℚ) → ℚ → ℚ
  | [], _ => 1
  | (t, g) :: rest, x => if x < t then g else firstExceedingGrade rest x

set_option maxHeartbeats 1000000 in
lemma firstExceedingGrade_profitability (p : ℚ) :
    firstExceedingGrade (profitability_ranges.zip profitability_grade) p =
      profitabilityClosed p := by
  rw [show profitability_ranges.zip profitability_grade =
        [(60, 0.1), (70, 0.2), (80, 0.3), (90, 0.4), (100, 0.5),
         (125, 0.6), (150, 0.7), (200, 0.8), (300, 0.9)] from rfl]
  simp only [firstExceedingGrade, profitabilityClosed]
  split_ifs <;> first | rfl | linarith

set_option maxHeartbeats 1000000 in
lemma firstExceedingGrade_profit_prob (pp : ℚ) :
    firstExceedingGrade (profit_prob_ranges.zip profit_prob_grade) pp =
      profitProbClosed pp := by
  rw [show profit_prob_ranges.zip profit_prob_grade =
        [(30, 0.3), (35, 0.4), (40, 0.5), (45, 0.6), (50, 0.7),
         (55, 0.8), (60, 0.9)] from rfl]
  simp only [firstExceedingGrade, profitProbClosed]
  split_ifs <;> first | rfl | linarith

/-- Claim C1: both step functions return the grade paired with the first
threshold strictly exceeding the input (grades read off the parallel grade
list), and return `1.0` once the input reaches the last threshold
(300 resp. 60); in particular `grade_profitability 59 = 0.1`,
`grade_profitability 60 = 0.2`, `grade_profitability 300 = 1`,
`grade_profitability 301 = 1`, `grade_profit_prob 29 = 0.3` and
`grade_profit_prob 60 = 1`. -/
theorem grading_first_threshold_spec :
    (∀ p : ℚ, grade_profitability p =
      some (firstExceedingGrade (profitability_ranges.zip profitability_grade) p))
    ∧ (∀ pp : ℚ, grade_profit_prob pp =
      some (firstExceedingGrade (profit_prob_ranges.zip profit_prob_grade) pp))
    ∧ (∀ p : ℚ, 300 ≤ p → grade_profitability p = some 1)
    ∧ (∀ pp : ℚ, 60 ≤ pp → grade_profit_prob pp = some 1)
    ∧ grade_profitability 59 = some 0.1
    ∧ grade_profitability 60 = some 0.2
    ∧ grade_profitability 300 = some 1
    ∧ grade_profitability 301 = some 1
    ∧ grade_profit_prob 29 = some 0.3
    ∧ grade_profit_prob 60 = some 1 := by
  refine ⟨fun p => ?_, fun pp => ?_, fun p hp => ?_, fun pp hpp => ?_,
    ?_, ?_, ?_, ?_, ?_, ?_⟩ <;>
    simp only [grade_profitability_eq, grade_profit_prob_eq,
      firstExceedingGrade_profitability, firstExceedingGrade_profit_prob]
  · rw [show profitabilityClosed p = 1 by
      unfold profitabilityClosed; split_ifs <;> first | rfl | linarith]
  · rw [show profitProbClosed pp = 1 by
      unfold profitProbClosed; split_ifs <;> first | rfl | linarith]
  · norm_num [profitabilityClosed]
  · norm_num [profitabilityClosed]
  · norm_num [profitabilityClosed]
  · norm_num [profitabilityClosed]
  · norm_num [profitProbClosed]
  · norm_num [profitProbClosed]

/-- Claim C1 witness: the hypothesised conjuncts instantiated at `p = 301`
and `pp = 60`. -/
theorem grading_first_threshold_spec_witness :
    (300 : ℚ) ≤ 301 ∧ grade_profitability 301 = some 1 ∧
    (60 : ℚ) ≤ 60 ∧ grade_profit_prob 60 = some 1 :=
  ⟨by norm_num, grading_first_threshold_spec.2.2.1 301 (by norm_num),
   by norm_num, grading_first_threshold_spec.2.2.2.1 60 (by norm_num)⟩

/-- Claim C10: both grading step functions are monotone non-decreasing and
total, always yielding a value from their finite grade sets
(`{0.1, ..., 0.9, 1}` resp. `{0.3, ..., 0.9, 1}`); the loop never falls
through without a result. -/
theorem grade_functions_monotone_total :
    (∀ x y gx gy : ℚ, x ≤ y → grade_profitability x = some gx →
      grade_profitability y = some gy → gx ≤ gy)
    ∧ (∀ x y gx gy : ℚ, x ≤ y → grade_profit_prob x = some gx →
      grade_profit_prob y = some gy → gx ≤ gy)
    ∧ (∀ x : ℚ, ∃ g, grade_profitability x = some g ∧
      (g = 0.1 ∨ g = 0.2 ∨ g = 0.3 ∨ g = 0.4 ∨ g = 0.5 ∨ g = 0.6 ∨ g = 0.7 ∨
       g = 0.8 ∨ g = 0.9 ∨ g = 1))
    ∧ (∀ x : ℚ, ∃ g, grade_profit_prob x = some g ∧
      (g = 0.3 ∨ g = 0.4 ∨ g = 0.5 ∨ g = 0.6 ∨ g = 0.7 ∨ g = 0.8 ∨ g = 0.9 ∨
       g = 1)) := by
  refine ⟨fun x y gx gy hxy hx hy => ?_, fun x y gx gy hxy hx hy => ?_,
    fun x => ?_, fun x => ?_⟩
  · rw [grade_profitability_eq] at hx hy
    obtain rfl : gx = profitabilityClosed x := (Option.some.injEq _ _).mp hx.symm
    obtain rfl : gy = profitabilityClosed y := (Option.some.injEq _ _).mp hy.symm
    exact profitabilityClosed_mono hxy
  · rw [grade_profit_prob_eq] at hx hy
    obtain rfl : gx = profitProbClosed x := (Option.some.injEq _ _).mp hx.symm
    obtain rfl : gy = profitProbClosed y := (Option.some.injEq _ _).mp hy.symm
    exact profitProbClosed_mono hxy
  · refine ⟨profitabilityClosed x, grade_profitability_eq x, ?_⟩
    unfold profitabilityClosed
    split_ifs <;> norm_num
  · refine ⟨profitProbClosed x, grade_profit_prob_eq x, ?_⟩
    unfold profitProbClosed
    split_ifs <;> norm_num

/-- Claim C10 witness: monotonicity applied at the concrete pair
`59 ≤ 60`. -/
theorem grade_functions_monotone_total_witness :
    (59 : ℚ) ≤ 60 ∧ grade_profitability 59 = some 0.1 ∧
    grade_profitability 60 = some 0.2 ∧ (0.1 : ℚ) ≤ 0.2 :=
  ⟨by norm_num, by norm_num [grade_profitability_eq, profitabilityClosed],
   by norm_num [grade_profitability_eq, profitabilityClosed],
   grade_functions_monotone_total.1 59 60 0.1 0.2 (by norm_num)
     (by norm_num [grade_profitability_eq, profitabilityClosed])
     (by norm_num [grade_profitability_eq, profitabilityClosed])⟩

/-! ## Composite grade (source lines 88-105)

`grade_weight` is the fixed configuration dictionary; the per-row loop
computes the three weighted parts and stores
`round(profit_prob_part + profitability_part + duration_part, 1)`. -/

def w_profit_probability : ℚ := 50

def w_profitability : ℚ := 50

def w_duration : ℚ := 0

def w_time_until_event : ℚ := 0

/-- One iteration of the grade-calculation loop (source lines 95-105) for a
row with the given parsed `Profit Prob`, `Profitability` and `Duration`
values.  The division `10/duration` is evaluated before being multiplied by
its (zero) weight, so a zero duration fails. -/
def compositeGrade (profit_prob prof dur : ℚ) : Option ℚ := do
  let profitability_grade_val ← grade_profitability prof
  let profit_prob_grade_val ← grade_profit_prob profit_prob
  let duration_div ← pydiv 10 dur
  pure (pyround1 (profit_prob_grade_val * w_profit_probability +
    profitability_grade_val * w_profitability + duration_div * w_duration))

lemma pyRoundHalfEven_intCast (n : ℤ) : pyRoundHalfEven (n : ℚ) = n := by
  norm_num [pyRoundHalfEven, Int.floor_intCast]

lemma pyround1_intCast (n : ℤ) : pyround1 (n : ℚ) = n := by
  unfold pyround1
  rw [show ((n : ℚ) * 10) = ((n * 10 : ℤ) : ℚ) by push_cast; ring,
    pyRoundHalfEven_intCast]
  push_cast
  ring

lemma compositeGrade_eq (profit_prob prof dur : ℚ) :
    compositeGrade profit_prob prof dur =
      if dur = 0 then none
      else
        some (pyround1 (profitProbClosed profit_prob * w_profit_probability +
          profitabilityClosed prof * w_profitability + 10 / dur * w_duration)) := by
  rw [compositeGrade, grade_profitability_eq, grade_profit_prob_eq]
  by_cases hdur : dur = 0
  · simp [pydiv, hdur]
  · simp [pydiv, hdur]

/-- Claim C2: for a non-zero duration the composite grade equals
`round(grade_profit_prob(pp)*50 + grade_profitability(p)*50 +
(10/duration)*0, 1)`; every grade the loop produces lies in `[20, 100]`;
and `profit_prob = 60, profitability = 300` yields exactly `100`. -/
theorem composite_grade_weighted_range :
    (∀ profit_prob prof dur gp gpp : ℚ, dur ≠ 0 →
      grade_profitability prof = some gp →
      grade_profit_prob profit_prob = some gpp →
      compositeGrade profit_prob prof dur =
        some (pyround1 (gpp * 50 + gp * 50 + 10 / dur * 0)))
    ∧ (∀ profit_prob prof dur g : ℚ,
      compositeGrade profit_prob prof dur = some g → 20 ≤ g ∧ g ≤ 100)
    ∧ (∀ dur : ℚ, dur ≠ 0 → compositeGrade 60 300 dur = some 100) := by
  refine ⟨fun profit_prob prof dur gp gpp hdur hgp hgpp => ?_,
    fun profit_prob prof dur g hg => ?_, fun dur hdur => ?_⟩
  · rw [grade_profitability_eq, Option.some.injEq] at hgp
    rw [grade_profit_prob_eq, Option.some.injEq] at hgpp
    rw [compositeGrade_eq, if_neg hdur, ← hgp, ← hgpp]
    simp [w_profit_probability, w_profitability, w_duration]
  · rw [compositeGrade_eq] at hg
    by_cases hdur : dur = 0
    · simp [hdur] at hg
    · rw [if_neg hdur, Option.some.injEq] at hg
      obtain ⟨k1, hk1, hk1a, hk1b⟩ := profitabilityClosed_bounds prof
      obtain ⟨k2, hk2, hk2a, hk2b⟩ := profitProbClosed_bounds profit_prob
      have hx : profitProbClosed profit_prob * w_profit_probability +
          profitabilityClosed prof * w_profitability + 10 / dur * w_duration =
          ((5 * (k2 + k1) : ℤ) : ℚ) := by
        rw [hk1, hk2]
        unfold w_profit_probability w_profitability w_duration
        push_cast
        ring
      rw [hx, pyround1_intCast] at hg
      subst hg
      constructor
      · exact_mod_cast (by omega : (20 : ℤ) ≤ 5 * (k2 + k1))
      · exact_mod_cast (by omega : 5 * (k2 + k1) ≤ (100 : ℤ))
  · rw [compositeGrade_eq, if_neg hdur]
    rw [show profitabilityClosed 300 = 1 by norm_num [profitabilityClosed]]
    rw [show profitProbClosed 60 = 1 by norm_num [profitProbClosed]]
    rw [show (1 : ℚ) * w_profit_probability + 1 * w_profitability +
        10 / dur * w_duration = ((100 : ℤ) : ℚ) by
      unfold w_profit_probability w_profitability w_duration; push_cast; ring]
    rw [pyround1_intCast]
    norm_num

/-- Claim C2 witness: the composite grade at
`profit_prob = 60, profitability = 300, duration = 1`. -/
theorem composite_grade_weighted_range_witness :
    compositeGrade 60 300 1 = some 100 ∧ (20 : ℚ) ≤ 100 ∧ (100 : ℚ) ≤ 100 := by
  have h := composite_grade_weighted_range.2.2 1 (by norm_num)
  exact ⟨h, composite_grade_weighted_range.2.1 60 300 1 100 h⟩

/-- Claim C7: a zero duration makes the composite grade computation fail
with a division error: the term `10/duration` is evaluated even though its
weight is zero, so the whole row computation yields no grade. -/
theorem zero_duration_division_none :
    ∀ profit_prob prof : ℚ, compositeGrade profit_prob prof 0 = none := by
  intro profit_prob prof
  rw [compositeGrade_eq]
  simp

/-! ## Duration Calculator (source lines 56-62)

`days_between` computes `(future_date - datetime.today()).days`, i.e. the
floor of the difference in days; the loop stores `days_between(...) + 1` in
the `Duration` column.  A date parsed with `strptime(s, m/d/Y)` is a
midnight instant, modelled as `86400 * day_number` seconds.  The source
reads `datetime.today()` inside `days_between`, i.e. once per row; the pure
embedding therefore passes the wall-clock reading explicitly: `clock i` is
the value `datetime.today()` returns during row `i`. -/

def days_between (future_date today : ℚ) : ℤ :=
  ⌊(future_date - today) / 86400⌋

/-- The value stored in the `Duration` column for one row (source line 62):
`days_between(future_date) + 1`, where `today` is the clock reading made
during that row's iteration. -/
def durationOf (future_date today : ℚ) : ℤ :=
  days_between future_date today + 1

/-- The `iterrows` loop of source lines 60-62: row `i` gets
`durationOf expDate (clock i)`, each row re-reading the clock. -/
def durationsFrom (clock : ℕ → ℚ) : ℕ → List ℚ → List ℤ
  | _, [] => []
  | i, e :: rest => durationOf e (clock i) :: durationsFrom clock (i + 1) rest

def durationsOfRows (expDates : List ℚ) (clock : ℕ → ℚ) : List ℤ :=
  durationsFrom clock 0 expDates

/-- A wall-clock trace straddling midnight: the first reading is at
23:53:20 of day 0, the second at 00:00:01 of day 1. -/
def ceClock : ℕ → ℚ := fun i => if i = 0 then 86000 else 86401

lemma duration_midnight (E : ℤ) (n : ℚ) :
    durationOf (86400 * (E : ℚ)) n = E - ⌈n / 86400⌉ + 1 := by
  unfold durationOf days_between
  rw [show (86400 * (E : ℚ) - n) / 86400 = -(n / 86400) + (E : ℚ) by
    field_simp; ring]
  rw [Int.floor_add_int, Int.floor_neg]
  ring

lemma ceil_day_of_lt (t : ℚ) (h0 : 0 < t) (h1 : t ≤ 86400) :
    ⌈t / 86400⌉ = 1 := by
  rw [Int.ceil_eq_iff]
  norm_num
  constructor
  · positivity
  · rw [div_le_one (by norm_num)]
    exact h1

lemma duration_ce_a : durationOf 0 86000 = 0 := by
  have h := duration_midnight 0 86000
  rw [ceil_day_of_lt 86000 (by norm_num) (by norm_num)] at h
  norm_num at h
  exact h

lemma duration_ce_b : durationOf 0 86401 = -1 := by
  have h := duration_midnight 0 86401
  rw [show ⌈(86401 : ℚ) / 86400⌉ = 2 by
    rw [Int.ceil_eq_iff]
    constructor
    · rw [lt_div_iff₀ (by norm_num)]
      norm_num
    · rw [div_le_iff₀ (by norm_num)]
      norm_num] at h
  norm_num at h
  exact h

lemma duration_day_split (E d : ℤ) (t : ℚ) (h0 : 0 ≤ t) (h1 : t < 86400) :
    durationOf (86400 * (E : ℚ)) (86400 * (d : ℚ) + t) =
      if t = 0 then E - d + 1 else E - d := by
  rw [duration_midnight]
  rw [show (86400 * (d : ℚ) + t) / 86400 = t / 86400 + (d : ℚ) by
    field_simp; ring]
  rw [Int.ceil_add_int]
  rcases eq_or_lt_of_le h0 with h | h
  · rw [if_pos h.symm, ← h]
    norm_num
  · rw [if_neg (by linarith), ceil_day_of_lt t h (le_of_lt h1)]
    ring

/-- Claim C3 counterexample: expiration at midnight of day 0 (instant `0`,
as parsed from month/day/year text) with the reference instant at noon of
the same day (`43200`) yields duration `0`, not the claimed `1`; an
expiration 10 days after the reference date (midnight instant `864000`)
yields `10`, not the claimed `11`. -/
theorem duration_same_day_counterexample :
    durationOf 0 43200 = 0 ∧ durationOf 864000 43200 = 10 ∧
    ¬(durationOf 0 43200 = 1 ∧ durationOf 864000 43200 = 11) := by
  have ha : durationOf 0 43200 = 0 := by
    have h := duration_midnight 0 43200
    rw [ceil_day_of_lt 43200 (by norm_num) (by norm_num)] at h
    norm_num at h
    exact h
  have hb : durationOf 864000 43200 = 10 := by
    have h := duration_midnight 10 43200
    rw [ceil_day_of_lt 43200 (by norm_num) (by norm_num)] at h
    norm_num at h
    exact h
  refine ⟨ha, hb, fun hc => ?_⟩
  rw [ha] at hc
  exact absurd hc.1 (by norm_num)

/-- Claim C3 (amended): the computed duration always equals
`floor((expiration - now) in days) + 1`; when the reference instant is
exactly midnight of its calendar day (time-of-day `t = 0`) a same-day
expiration yields `1` and an expiration `k` days later yields `k + 1`
(so 10 days later yields 11), but for a reference instant strictly after
midnight a same-day expiration yields `0` and an expiration `k` days
after the reference date yields `k`. -/
theorem duration_floor_plus_one_amended :
    (∀ future_date now : ℚ, durationOf future_date now =
      ⌊(future_date - now) / 86400⌋ + 1)
    ∧ (∀ (E d : ℤ) (t : ℚ), 0 ≤ t → t < 86400 →
      durationOf (86400 * (E : ℚ)) (86400 * (d : ℚ) + t) =
        if t = 0 then E - d + 1 else E - d) :=
  ⟨fun _ _ => rfl, duration_day_split⟩

/-- Claim C3 amended-theorem witness: the day-split formula instantiated at
expiration day 0 and reference noon of day 0. -/
theorem duration_floor_plus_one_amended_witness :
    (0 : ℚ) ≤ 43200 ∧ (43200 : ℚ) < 86400 ∧
    durationOf (86400 * ((0 : ℤ) : ℚ)) (86400 * ((0 : ℤ) : ℚ) + 43200) =
      if (43200 : ℚ) = 0 then (0 : ℤ) - 0 + 1 else 0 - 0 :=
  ⟨by norm_num, by norm_num,
   duration_floor_plus_one_amended.2 0 0 43200 (by norm_num) (by norm_num)⟩

/-- Claim C4 counterexample: the reference instant is re-read on every row
(`datetime.today()` is called inside `days_between`, once per iteration),
so two rows with the identical expiration date text (both parsed to the
midnight instant `0`) receive different durations when the run straddles
midnight: with clock readings `86000` then `86401` the durations are `0`
and `-1`. -/
theorem per_row_clock_counterexample :
    durationsOfRows [0, 0] ceClock = [0, -1] ∧ (0 : ℤ) ≠ -1 := by
  constructor
  · simp [durationsOfRows, durationsFrom, ceClock, duration_ce_a, duration_ce_b]
  · norm_num

/-- Claim C4 (amended): the clock is read once per row, not once per batch;
two rows with the same expiration date receive identical durations exactly
when their clock readings have the same day-ceiling — in particular
whenever all readings of one run fall inside one calendar day. -/
theorem per_row_clock_amended :
    (∀ (expDates : List ℚ) (clock : ℕ → ℚ),
      durationsOfRows expDates clock = durationsFrom clock 0 expDates)
    ∧ (∀ (E : ℤ) (n₁ n₂ : ℚ), ⌈n₁ / 86400⌉ = ⌈n₂ / 86400⌉ →
      durationOf (86400 * (E : ℚ)) n₁ = durationOf (86400 * (E : ℚ)) n₂) := by
  refine ⟨fun _ _ => rfl, fun E n₁ n₂ h => ?_⟩
  rw [duration_midnight, duration_midnight, h]

/-- Claim C4 amended-theorem witness: two same-day clock readings (noon and
a minute later) give the same duration for the same expiration date. -/
theorem per_row_clock_amended_witness :
    ⌈(43200 : ℚ) / 86400⌉ = ⌈(43260 : ℚ) / 86400⌉ ∧
    durationOf (86400 * ((3 : ℤ) : ℚ)) 43200 =
      durationOf (86400 * ((3 : ℤ) : ℚ)) 43260 := by
  have hc : ⌈(43200 : ℚ) / 86400⌉ = ⌈(43260 : ℚ) / 86400⌉ := by
    rw [ceil_day_of_lt 43200 (by norm_num) (by norm_num),
      ceil_day_of_lt 43260 (by norm_num) (by norm_num)]
  exact ⟨hc, per_row_clock_amended.2 3 43200 43260 hc⟩

/-! ## Data Cleaning: row index and footer drop (source lines 45-46)

`df['Row Index'] = df.index` tags every raw row with its original zero-based
position; `df.drop(df.index[-1])` then removes the (unique) last label.
On an empty table `df.index[-1]` raises `IndexError`, modelled as `none`. -/

def cleanRows {α : Type} (rows : List α) : Option (List (ℕ × α)) :=
  if rows.isEmpty then none
  else some rows.enum.dropLast

/-- Claim C8: a table of `N` raw rows is tagged with row indices `0..N-1`
before any removal, then the last row is dropped unconditionally, leaving
`N-1` rows whose row-index values are exactly `0..N-2` (original positions,
not renumbered). -/
theorem drop_last_row_index_range {α : Type} (rows : List α) (h : rows ≠ []) :
    ∃ out, cleanRows rows = some out ∧
      out.length = rows.length - 1 ∧
      out.map Prod.fst = List.range (rows.length - 1) := by
  refine ⟨rows.enum.dropLast, by simp [cleanRows, h], ?_, ?_⟩
  · simp [List.length_dropLast, List.enum_length]
  · rw [List.map_dropLast, List.enum_map_fst]
    obtain ⟨n, hn⟩ : ∃ n, rows.length = n + 1 :=
      ⟨rows.length - 1, (Nat.succ_pred_eq_of_pos (List.length_pos.mpr h)).symm⟩
    rw [hn, List.range_succ, List.dropLast_concat]
    simp

/-- Claim C8 witness: a concrete three-row table keeps rows indexed 0 and 1. -/
theorem drop_last_row_index_range_witness :
    ∃ out, cleanRows [10, 20, 30] = some out ∧
      out.length = 2 ∧ out.map Prod.fst = List.range 2 := by
  have h := drop_last_row_index_range [10, 20, 30] (by simp)
  simpa using h

/-! ## Filter & Present (source lines 112-116)

`df_filtered` keeps rows with `Profitability >= profitability` and
`Profit Prob >= profit_prob` (slider values); an empty result shows a
warning instead of a chart. -/

/-- One enriched row after cleaning, parsing, renaming and grading. -/
structure EnrichedRow where
  rowIndex : ℕ
  symbol : String
  marketPrice : ℚ
  profitProb : ℚ
  profitability : ℚ
  duration : ℤ
  grade : ℚ
deriving DecidableEq

/-- Source line 112: `df[(df["Profitability"]>=profitability) &
(df["Profit Prob"]>=profit_prob)]`. -/
def filteredRows (threshProfitability threshProfitProb : ℚ)
    (rows : List EnrichedRow) : List EnrichedRow :=
  rows.filter (fun r =>
    decide (r.profitability ≥ threshProfitability) &&
    decide (r.profitProb ≥ threshProfitProb))

inductive PresentOutcome where
  | emptyWarning : PresentOutcome
  | chart : List EnrichedRow → PresentOutcome
deriving DecidableEq

/-- Source lines 115-116: warn when the filtered frame is empty, otherwise
render the chart over the filtered rows. -/
def presentFiltered (threshProfitability threshProfitProb : ℚ)
    (rows : List EnrichedRow) : PresentOutcome :=
  let f := filteredRows threshProfitability threshProfitProb rows
  if f.isEmpty then PresentOutcome.emptyWarning else PresentOutcome.chart f

/-- Claim C9: the filter retains exactly the rows satisfying both inclusive
threshold comparisons, and when no row satisfies them the empty-result
warning is signalled and no chart is produced. -/
theorem inclusive_filter_empty_signal :
    (∀ (t₁ t₂ : ℚ) (rows : List EnrichedRow) (r : EnrichedRow),
      r ∈ filteredRows t₁ t₂ rows ↔
        r ∈ rows ∧ r.profitability ≥ t₁ ∧ r.profitProb ≥ t₂)
    ∧ (∀ (t₁ t₂ : ℚ) (rows : List EnrichedRow),
      (∀ r ∈ rows, ¬(r.profitability ≥ t₁ ∧ r.profitProb ≥ t₂)) →
      presentFiltered t₁ t₂ rows = PresentOutcome.emptyWarning) := by
  constructor
  · intro t₁ t₂ rows r
    simp [filteredRows, List.mem_filter]
  · intro t₁ t₂ rows h
    have hf : filteredRows t₁ t₂ rows = [] := by
      rw [filteredRows, List.filter_eq_nil_iff]
      intro r hr
      have := h r hr
      simp only [Bool.and_eq_true, decide_eq_true_eq]
      tauto
    rw [presentFiltered]
    simp [hf]

/-- A concrete enriched row with profitability 25 and profit probability
45, matching neither `>= 50` threshold. -/
def rowA : EnrichedRow :=
  ⟨0, "ABC", 1, 45, 25, 10, 35⟩

/-- Claim C9 witness: thresholds 50/50 on a dataset whose only row fails
both conditions trigger the empty-result warning. -/
theorem inclusive_filter_empty_signal_witness :
    presentFiltered 50 50 [rowA] = PresentOutcome.emptyWarning :=
  inclusive_filter_empty_signal.2 50 50 [rowA] (by
    intro r hr
    simp only [List.mem_singleton] at hr
    subst hr
    norm_num [rowA])

/-! ## Field Parser (source lines 48-54)

`convert_Profit_Prob_to_float` is `float(percent_str.replace('%', ''))`;
`convert_Risk_Reward_to_float` is `float(s.replace(' to 1', ''))`; the
`Risk/Reward` column then becomes `round(100 / r, 1)`.  `str.replace(pat,
'')` removes every (leftmost, non-overlapping) occurrence of `pat`, not
just a trailing one.  Python `float` is modelled on plain decimal literals
(optional sign, digits, optional fractional part); `float` raises
`ValueError` on other strings, modelled as `none`.  Exponent, infinity,
nan and surrounding-whitespace forms accepted by Python are outside this
model; none of the claims depends on them. -/

def digitsToNat (l : List Char) : ℕ :=
  l.foldl (fun n c => 10 * n + (c.toNat - 48)) 0

def parseUnsigned (s : List Char) : Option ℚ :=
  if (s.dropWhile Char.isDigit).isEmpty then
    if (s.takeWhile Char.isDigit).isEmpty then none
    else some (digitsToNat (s.takeWhile Char.isDigit) : ℚ)
  else if (s.dropWhile Char.isDigit).head? = some '.' then
    if (s.dropWhile Char.isDigit).tail.all Char.isDigit &&
        !((s.takeWhile Char.isDigit).isEmpty &&
          (s.dropWhile Char.isDigit).tail.isEmpty) then
      some ((digitsToNat (s.takeWhile Char.isDigit) : ℚ) +
        (digitsToNat (s.dropWhile Char.isDigit).tail : ℚ) /
          10 ^ (s.dropWhile Char.isDigit).tail.length)
    else none
  else none

def pythonFloatOfString (s : List Char) : Option ℚ :=
  if s.head? = some '-' then (parseUnsigned s.tail).map (fun q => -q)
  else if s.head? = some '+' then parseUnsigned s.tail
  else parseUnsigned s

lemma parseUnsigned_chars (s : List Char) (q : ℚ)
    (h : parseUnsigned s = some q) :
    ∀ c ∈ s, c.isDigit = true ∨ c = '.' := by
  intro c hc
  rw [← List.takeWhile_append_dropWhile (p := Char.isDigit) (l := s)] at hc
  rcases List.mem_append.mp hc with h1 | h2
  · exact Or.inl (List.mem_takeWhile_imp h1)
  · rw [parseUnsigned] at h
    cases hrest : s.dropWhile Char.isDigit with
    | nil => rw [hrest] at h2; cases h2
    | cons a as =>
      rw [hrest] at h h2
      simp only [List.isEmpty_cons, Bool.false_eq_true, if_false,
        List.head?_cons] at h
      by_cases ha : a = '.'
      · subst ha
        rw [if_pos rfl] at h
        by_cases hg : (as.all Char.isDigit &&
            !((s.takeWhile Char.isDigit).isEmpty && as.isEmpty)) = true
        · rcases List.mem_cons.mp h2 with rfl | h2a
          · exact Or.inr rfl
          · simp only [List.tail_cons] at hg
            simp only [Bool.and_eq_true] at hg
            exact Or.inl (List.all_eq_true.mp hg.1 c h2a)
        · rw [List.tail_cons] at h
          rw [if_neg hg] at h
          cases h
      · rw [if_neg (by simp [ha])] at h
        cases h

lemma pythonFloatOfString_chars (s : List Char) (q : ℚ)
    (h : pythonFloatOfString s = some q) :
    ∀ c ∈ s, c.isDigit = true ∨ c = '.' ∨ c = '-' ∨ c = '+' := by
  intro c hc
  rw [pythonFloatOfString] at h
  cases s with
  | nil => cases hc
  | cons a t =>
    simp only [List.head?_cons, List.tail_cons] at h
    by_cases h1 : a = '-'
    · rw [if_pos (by simp [h1])] at h
      rcases Option.map_eq_some'.mp h with ⟨q2, hq2, _⟩
      rcases List.mem_cons.mp hc with rfl | hct
      · exact Or.inr (Or.inr (Or.inl h1))
      · rcases parseUnsigned_chars _ _ hq2 c hct with hd | hdot
        · exact Or.inl hd
        · exact Or.inr (Or.inl hdot)
    · by_cases h2 : a = '+'
      · rw [if_neg (by simp [h1]), if_pos (by simp [h2])] at h
        rcases List.mem_cons.mp hc with rfl | hct
        · exact Or.inr (Or.inr (Or.inr h2))
        · rcases parseUnsigned_chars _ _ h c hct with hd | hdot
          · exact Or.inl hd
          · exact Or.inr (Or.inl hdot)
      · rw [if_neg (by simp [h1]), if_neg (by simp [h2])] at h
        rcases parseUnsigned_chars _ _ h c hc with hd | hdot
        · exact Or.inl hd
        · exact Or.inr (Or.inl hdot)

/-- Python `str.replace(pat, '')`, fuelled structurally; `fuel = s.length`
always suffices since every step consumes at least one character. -/
def removeAllFuel (pat : List Char) : ℕ → List Char → List Char
  | 0, l => l
  | _ + 1, [] => []
  | fuel + 1, c :: rest =>
    if List.take pat.length (c :: rest) = pat then
      removeAllFuel pat fuel (List.drop (pat.length - 1) rest)
    else
      c :: removeAllFuel pat fuel rest

def removeAll (pat s : List Char) : List Char := removeAllFuel pat s.length s

lemma removeAllFuel_nil (pat : List Char) (f : ℕ) :
    removeAllFuel pat f [] = [] := by
  cases f <;> rfl

lemma removeAllFuel_append (h : Char) (pt : List Char) :
    ∀ (num : List Char) (f : ℕ), (num ++ h :: pt).length ≤ f →
    (∀ c ∈ num, c ≠ h) →
    removeAllFuel (h :: pt) f (num ++ h :: pt) = num := by
  intro num
  induction num with
  | nil =>
    intro f hf hnum
    rw [List.nil_append]
    cases f with
    | zero => simp at hf
    | succ f =>
      rw [removeAllFuel, if_pos (by rw [List.take_length])]
      rw [show (h :: pt).length - 1 = pt.length by simp, List.drop_length]
      exact removeAllFuel_nil _ _
  | cons c num ih =>
    intro f hf hnum
    cases f with
    | zero =>
      exfalso
      have : 0 < (c :: num ++ h :: pt).length := by simp
      omega
    | succ f =>
      rw [List.cons_append, removeAllFuel]
      rw [if_neg (by
        rw [show (h :: pt).length = pt.length + 1 by simp,
          List.take_succ_cons]
        intro hEq
        exact hnum c (List.mem_cons_self c num) (List.head_eq_of_cons_eq hEq))]
      rw [ih f (by simp at hf ⊢; omega) (fun x hx => hnum x (List.mem_cons_of_mem c hx))]

lemma removeAll_append (h : Char) (pt num : List Char)
    (hnum : ∀ c ∈ num, c ≠ h) :
    removeAll (h :: pt) (num ++ h :: pt) = num :=
  removeAllFuel_append h pt num _ (le_refl _) hnum

lemma parseUnsigned_digits (s : List Char) (h1 : s.isEmpty = false)
    (h2 : s.all Char.isDigit = true) :
    parseUnsigned s = some (digitsToNat s : ℚ) := by
  have hdw : s.dropWhile Char.isDigit = [] :=
    List.dropWhile_eq_nil_iff.mpr (List.all_eq_true.mp h2)
  have htw : s.takeWhile Char.isDigit = s :=
    List.takeWhile_eq_self_iff.mpr (List.all_eq_true.mp h2)
  rw [parseUnsigned, hdw, htw]
  simp [h1]

lemma pythonFloatOfString_digits (s : List Char) (h1 : s.isEmpty = false)
    (h2 : s.all Char.isDigit = true) :
    pythonFloatOfString s = some (digitsToNat s : ℚ) := by
  rw [pythonFloatOfString]
  cases s with
  | nil => simp at h1
  | cons a t =>
    have ha : a.isDigit = true := List.all_eq_true.mp h2 a (List.mem_cons_self a t)
    rw [if_neg (by
      simp only [List.head?_cons, Option.some.injEq]
      intro hEq
      rw [hEq] at ha
      exact absurd ha (by decide))]
    rw [if_neg (by
      simp only [List.head?_cons, Option.some.injEq]
      intro hEq
      rw [hEq] at ha
      exact absurd ha (by decide))]
    exact parseUnsigned_digits _ h1 h2

def convert_Profit_Prob_to_float (percent_str : List Char) : Option ℚ :=
  pythonFloatOfString (removeAll ['%'] percent_str)

def ratioSuffix : List Char := " to 1".toList

def convert_Risk_Reward_to_float (ratio_str : List Char) : Option ℚ :=
  pythonFloatOfString (removeAll ratioSuffix ratio_str)

/-- Source line 54: the `Profitability` value derived from one
`Risk/Reward` cell: `round(100 / convert_Risk_Reward_to_float(s), 1)`. -/
def profitabilityOfRatioText (s : List Char) : Option ℚ := do
  let r ← convert_Risk_Reward_to_float s
  let q ← pydiv 100 r
  pure (pyround1 q)

/-- The spec's pattern `<number>%`: a parseable number followed by a
single trailing percent sign. -/
def matchesPercent (s : List Char) : Prop :=
  ∃ num q, pythonFloatOfString num = some q ∧ s = num ++ ['%']

lemma parse_no_char (s : List Char) (q : ℚ) (c0 : Char)
    (h : pythonFloatOfString s = some q) (hd : c0.isDigit = false)
    (h1 : c0 ≠ '.') (h2 : c0 ≠ '-') (h3 : c0 ≠ '+') :
    ∀ c ∈ s, c ≠ c0 := by
  intro c hc hEq
  subst hEq
  rcases pythonFloatOfString_chars s q h c hc with hh | hh | hh | hh
  · rw [hd] at hh
    cases hh
  · exact h1 hh
  · exact h2 hh
  · exact h3 hh

lemma convert_percent_of_parse (num : List Char) (q : ℚ)
    (h : pythonFloatOfString num = some q) :
    convert_Profit_Prob_to_float (num ++ ['%']) = some q := by
  rw [convert_Profit_Prob_to_float,
    removeAll_append '%' [] num
      (parse_no_char num q '%' h (by decide) (by decide) (by decide) (by decide))]
  exact h

lemma convert_ratio_of_parse (num : List Char) (q : ℚ)
    (h : pythonFloatOfString num = some q) :
    convert_Risk_Reward_to_float (num ++ ratioSuffix) = some q := by
  rw [convert_Risk_Reward_to_float,
    show ratioSuffix = ' ' :: "to 1".toList from by decide,
    removeAll_append ' ' ("to 1".toList) num
      (parse_no_char num q ' ' h (by decide) (by decide) (by decide) (by decide))]
  exact h

lemma parse45 : pythonFloatOfString "45".toList = some 45 := by
  rw [pythonFloatOfString_digits _ (by decide) (by decide),
    show digitsToNat "45".toList = 45 from by decide]
  norm_num

lemma parse4 : pythonFloatOfString ['4'] = some 4 := by
  rw [pythonFloatOfString_digits _ (by decide) (by decide),
    show digitsToNat ['4'] = 4 from by decide]
  norm_num

lemma parse1 : pythonFloatOfString ['1'] = some 1 := by
  rw [pythonFloatOfString_digits _ (by decide) (by decide),
    show digitsToNat ['1'] = 1 from by decide]
  norm_num

lemma ratio_text_eval (num : List Char) (r : ℚ)
    (h : pythonFloatOfString num = some r) (hr : r ≠ 0) :
    profitabilityOfRatioText (num ++ ratioSuffix) =
      some (pyround1 (100 / r)) := by
  have hc := convert_ratio_of_parse num r h
  simp [profitabilityOfRatioText, hc, pydiv, hr]

/-- Claim C5: for every ratio string of the form `R to 1` with numeric
`R` (nonzero, since Python `100/0` raises), the derived profitability
equals `round(100/R, 1)`; `R = 4` gives `25.0` and `R = 1` gives
`100.0`. -/
theorem ratio_round_profitability :
    (∀ (num : List Char) (r : ℚ), pythonFloatOfString num = some r → r ≠ 0 →
      profitabilityOfRatioText (num ++ ratioSuffix) =
        some (pyround1 (100 / r)))
    ∧ profitabilityOfRatioText "4 to 1".toList = some 25
    ∧ profitabilityOfRatioText "1 to 1".toList = some 100 := by
  refine ⟨ratio_text_eval, ?_, ?_⟩
  · rw [show "4 to 1".toList = ['4'] ++ ratioSuffix from by decide,
      ratio_text_eval ['4'] 4 parse4 (by norm_num),
      show (100 : ℚ) / 4 = ((25 : ℤ) : ℚ) by norm_num, pyround1_intCast]
    norm_num
  · rw [show "1 to 1".toList = ['1'] ++ ratioSuffix from by decide,
      ratio_text_eval ['1'] 1 parse1 (by norm_num),
      show (100 : ℚ) / 1 = ((100 : ℤ) : ℚ) by norm_num, pyround1_intCast]
    norm_num

/-- Claim C5 witness: the general conjunct instantiated at the numeral
text `4`. -/
theorem ratio_round_profitability_witness :
    pythonFloatOfString ['4'] = some 4 ∧ (4 : ℚ) ≠ 0 ∧
    profitabilityOfRatioText (['4'] ++ ratioSuffix) =
      some (pyround1 (100 / 4)) :=
  ⟨parse4, by norm_num,
   ratio_round_profitability.1 ['4'] 4 parse4 (by norm_num)⟩

/-- Claim C6 (amended): every string matching `<number>%` resp.
`<number> to 1` parses successfully to the contained number; parsing
fails exactly when the string with all occurrences of `%` resp. ` to 1`
removed is not a valid number — pattern mismatch alone does not imply
failure. -/
theorem field_parsing_success_amended :
    (∀ (num : List Char) (q : ℚ), pythonFloatOfString num = some q →
      convert_Profit_Prob_to_float (num ++ ['%']) = some q)
    ∧ (∀ (num : List Char) (q : ℚ), pythonFloatOfString num = some q →
      convert_Risk_Reward_to_float (num ++ ratioSuffix) = some q)
    ∧ (∀ s : List Char, convert_Profit_Prob_to_float s = none ↔
        pythonFloatOfString (removeAll ['%'] s) = none)
    ∧ (∀ s : List Char, convert_Risk_Reward_to_float s = none ↔
        pythonFloatOfString (removeAll ratioSuffix s) = none) :=
  ⟨convert_percent_of_parse, convert_ratio_of_parse,
   fun _ => Iff.rfl, fun _ => Iff.rfl⟩

/-- Claim C6 amended-theorem witness: the percentage direction applied
to the numeral text `45`. -/
theorem field_parsing_success_amended_witness :
    pythonFloatOfString "45".toList = some 45 ∧
    convert_Profit_Prob_to_float ("45".toList ++ ['%']) = some 45 :=
  ⟨parse45, field_parsing_success_amended.1 _ 45 parse45⟩

/-- Claim C6 counterexample: the string `45` does not match the pattern
`<number>%` (it lacks the trailing `%`), yet `convert_Profit_Prob_to_float`
parses it successfully to `45` because `replace('%', '')` leaves a
`%`-free string unchanged — so parse failure is not equivalent to pattern
mismatch. -/
theorem percent_pattern_counterexample :
    convert_Profit_Prob_to_float "45".toList = some 45 ∧
    ¬ matchesPercent "45".toList := by
  constructor
  · rw [convert_Profit_Prob_to_float,
      show removeAll ['%'] "45".toList = "45".toList from by decide]
    exact parse45
  · rintro ⟨num, q, _, heq⟩
    have hlast := congrArg List.getLast? heq
    rw [List.getLast?_concat,
      show "45".toList.getLast? = some '5' from by decide] at hlast
    simp only [Option.some.injEq] at hlast
    exact absurd hlast (by decide)
